import Mathlib

/-! Verification of the terminal interface turn loop.

Shallow embedding of `terminal_interface.py`: the sampling loop (stream
assembly, tool dispatch, transcript mutation, termination), the cache
annotation step, and the save/load transcript commands, together with
theorems settling the specification's testable properties against it.
-/

set_option autoImplicit false

namespace TerminalInterface

/-! ## Structured values

Python-side structured values (dictionaries, lists, strings, booleans) as
they flow through `json.dumps` / `json.loads` in `handle_command`.  Strings
are `List Char` to keep the codec proofs structural. -/

/-- A structured value in the shape Python's `json` module handles: null,
booleans, strings, arrays and objects (association lists).  Numbers are not
used by any message the program builds and are omitted. -/
inductive Json where
  | jnull : Json
  | jbool : Bool → Json
  | jstr : List Char → Json
  | jarr : List Json → Json
  | jobj : List (List Char × Json) → Json

/-- The opening brace character, written numerically. -/
def lbrace : Char := Char.ofNat 123

/-- The closing brace character, written numerically. -/
def rbrace : Char := Char.ofNat 125

/-- Unary-length-prefixed rendering of a string: `n` copies of `I`, a colon,
then the `n` characters.  Self-delimiting, so no escaping is needed. -/
def encStrBody (s : List Char) : List Char :=
  List.replicate s.length 'I' ++ ':' :: s

mutual

/-- Modelled from the spec: the stringify half of the persisted-transcript
collaborator (Python's `json.dumps`, external to this repository).  What the
claims rely on from its contract: it is injective with a matching parser
(round-trip), a dumped array begins with the bracket character, and a dumped
object begins with the brace character. -/
def encJson : Json → List Char
  | Json.jnull => ['n']
  | Json.jbool true => ['t']
  | Json.jbool false => ['f']
  | Json.jstr s => encStrBody s
  | Json.jarr vs => '[' :: encArr vs ++ [']']
  | Json.jobj kvs => lbrace :: encObj kvs ++ [rbrace]

/-- Rendering of the elements of an array, concatenated. -/
def encArr : List Json → List Char
  | [] => []
  | v :: vs => encJson v ++ encArr vs

/-- Rendering of the key/value pairs of an object, concatenated. -/
def encObj : List (List Char × Json) → List Char
  | [] => []
  | (k, v) :: kvs => encStrBody k ++ encJson v ++ encObj kvs

end

mutual

/-- Size of a structured value, used as parser fuel. -/
def sizeJ : Json → Nat
  | Json.jnull => 1
  | Json.jbool _ => 1
  | Json.jstr _ => 1
  | Json.jarr vs => sizeArr vs + 1
  | Json.jobj kvs => sizeObj kvs + 1

/-- Size of an array body (at least 1, so fuel strictly decreases). -/
def sizeArr : List Json → Nat
  | [] => 1
  | v :: vs => sizeJ v + sizeArr vs

/-- Size of an object body (at least 1, so fuel strictly decreases). -/
def sizeObj : List (List Char × Json) → Nat
  | [] => 1
  | (_, v) :: kvs => sizeJ v + sizeObj kvs

end

/-- Split off the leading run of `I` characters, returning its length and
the remainder. -/
def takeIs : List Char → Nat × List Char
  | [] => (0, [])
  | c :: cs =>
    if c = 'I' then
      let r := takeIs cs
      (r.1 + 1, r.2)
    else (0, c :: cs)

/-- Parse one unary-length-prefixed string, returning it and the remainder. -/
def parseStrBody (cs : List Char) : Option (List Char × List Char) :=
  let r := takeIs cs
  match r.2 with
  | ':' :: rest =>
    if r.1 ≤ rest.length then some (rest.take r.1, rest.drop r.1) else none
  | _ => none

mutual

/-- Modelled from the spec: the parse half of the persisted-transcript
collaborator (Python's `json.loads`), a fuel-indexed recursive-descent
parser matching `encJson`. -/
def parseJson : Nat → List Char → Option (Json × List Char)
  | 0, _ => none
  | _ + 1, [] => none
  | fuel + 1, c :: cs =>
    if c = 'n' then some (Json.jnull, cs)
    else if c = 't' then some (Json.jbool true, cs)
    else if c = 'f' then some (Json.jbool false, cs)
    else if c = '[' then
      match parseArrElems fuel cs with
      | some r => some (Json.jarr r.1, r.2)
      | none => none
    else if c = lbrace then
      match parseObjElems fuel cs with
      | some r => some (Json.jobj r.1, r.2)
      | none => none
    else if c = ']' then none
    else if c = rbrace then none
    else
      match parseStrBody (c :: cs) with
      | some r => some (Json.jstr r.1, r.2)
      | none => none

/-- Parse array elements up to the closing bracket. -/
def parseArrElems : Nat → List Char → Option (List Json × List Char)
  | 0, _ => none
  | _ + 1, [] => none
  | fuel + 1, c :: cs =>
    if c = ']' then some ([], cs)
    else
      match parseJson fuel (c :: cs) with
      | some r =>
        match parseArrElems fuel r.2 with
        | some r2 => some (r.1 :: r2.1, r2.2)
        | none => none
      | none => none

/-- Parse object key/value pairs up to the closing brace. -/
def parseObjElems : Nat → List Char → Option (List (List Char × Json) × List Char)
  | 0, _ => none
  | _ + 1, [] => none
  | fuel + 1, c :: cs =>
    if c = rbrace then some ([], cs)
    else
      match parseStrBody (c :: cs) with
      | some k =>
        match parseJson fuel k.2 with
        | some r =>
          match parseObjElems fuel r.2 with
          | some r2 => some ((k.1, r.1) :: r2.1, r2.2)
          | none => none
        | none => none
      | none => none

end

/-- `json.loads` on a whole string: the parse must consume all input. -/
def json_loads (s : List Char) : Option Json :=
  match parseJson (s.length + 1) s with
  | some (v, []) => some v
  | _ => none

/-! ## Data model of the sampling loop

Typed view of the dictionaries `TerminalInterface.sampling_loop` builds
(`terminal_interface.py`, lines 238-315).  Roles, content blocks, raw stream
blocks and tool results mirror the dict shapes the Python code constructs. -/

/-- Message role tag, `"user"` or `"assistant"`. -/
inductive Role where
  | user : Role
  | assistant : Role
  deriving DecidableEq, Repr

/-- One element of a non-error tool-result content list: the
`(type:text, text:...)` dict built at lines 282-285, or the
`(type:image, source:base64/png, data:...)` dict built at lines 286-294
(the fixed media-type fields are implicit in the constructor). -/
inductive TRItem where
  | textItem : String → TRItem
  | imageItem : String → TRItem
  deriving DecidableEq, Repr

/-- The `content` field of a tool-result block: either the raw error string
(line 279 assigns `result.error` directly) or the list of text/image items
(lines 281-294). -/
inductive TRContent where
  | errStr : String → TRContent
  | items : List TRItem → TRContent
  deriving DecidableEq, Repr

/-- The `tool_result` dict appended at lines 297-305. -/
structure ToolResultBlock where
  content : TRContent
  tool_use_id : String
  is_error : Bool
  deriving DecidableEq, Repr

/-- A content block of a transcript message built by the loop: the text param
(line 256), the tool-use param (lines 259-264), or a tool-result block
(lines 298-303). -/
inductive LoopBlock where
  | text : String → LoopBlock
  | toolUse : String → String → Json → LoopBlock
  | toolResult : ToolResultBlock → LoopBlock

/-- A transcript message: a role and an ordered block list. -/
structure Message where
  role : Role
  content : List LoopBlock

/-- The raw tool outcome returned by `ToolCollection.run`
(`ToolResult` dataclass: `output`, `error`, `base64_image`, each a string or
`None`). -/
structure PyToolResult where
  output : Option String
  error : Option String
  base64_image : Option String
  deriving DecidableEq, Repr

/-- Python truthiness of an optional string: `None` and the empty string are
falsy (`if result.error:` etc.). -/
def strOptTruthy : Option String → Bool
  | none => false
  | some s => if s = "" then false else true

/-- The non-error content items of a tool result (lines 281-294): a text item
when `result.output` is truthy, then an image item when `result.base64_image`
is truthy. -/
def tool_result_items (r : PyToolResult) : List TRItem :=
  (if strOptTruthy r.output then [TRItem.textItem (r.output.getD "")] else []) ++
  (if strOptTruthy r.base64_image then [TRItem.imageItem (r.base64_image.getD "")] else [])

/-- Conversion of a raw tool result to the `tool_result` block (lines
274-303): a truthy `error` forces `is_error = true` and the content becomes
the error string itself, discarding output and image; otherwise the content
is the item list and `is_error` stays `false`. -/
def make_tool_result (r : PyToolResult) (blockId : String) : ToolResultBlock :=
  if strOptTruthy r.error then
    { content := TRContent.errStr (r.error.getD ""), tool_use_id := blockId, is_error := true }
  else
    { content := TRContent.items (tool_result_items r), tool_use_id := blockId, is_error := false }

/-- A top-level content block as assembled from the drained stream
(`response_content_blocks`, lines 239-249): the loop later dispatches on
`block.type` being `text`, `tool_use`, or anything else (thinking blocks have
type `thinking` and hit no branch). -/
inductive RawBlock where
  | text : String → RawBlock
  | toolUse : String → String → Json → RawBlock
  | thinking : String → RawBlock

/-- Whether an assembled raw block is a tool-use block. -/
def isToolUseRaw : RawBlock → Bool
  | RawBlock.toolUse _ _ _ => true
  | _ => false

/-- Whether a response param block is a tool-use block (the
`block.get(type) == tool_use` test at line 314). -/
def isToolUseParam : LoopBlock → Bool
  | LoopBlock.toolUse _ _ _ => true
  | _ => false

/-- Whether a message has the assistant role. -/
def isAssistant (m : Message) : Bool :=
  match m.role with
  | Role.assistant => true
  | Role.user => false

/-- Whether a message has the user role. -/
def isUser (m : Message) : Bool :=
  match m.role with
  | Role.user => true
  | Role.assistant => false

/-- The post-stream processing loop (lines 252-305): walks the assembled
blocks in order, building `response_params` (first component) and, for each
tool-use block, running the tool and appending a one-block user message with
its converted result (second component, in dispatch order).  A text block is
kept only when its text is truthy (line 255); a thinking block matches no
branch and contributes nothing. -/
def process_blocks (runTool : String → Json → PyToolResult) :
    List RawBlock → List LoopBlock × List Message
  | [] => ([], [])
  | RawBlock.text s :: bs =>
    let r := process_blocks runTool bs
    (if s = "" then r.1 else LoopBlock.text s :: r.1, r.2)
  | RawBlock.toolUse blockId name input :: bs =>
    let result := runTool name input
    let trb := make_tool_result result blockId
    let r := process_blocks runTool bs
    (LoopBlock.toolUse blockId name input :: r.1,
     Message.mk Role.user [LoopBlock.toolResult trb] :: r.2)
  | RawBlock.thinking _ :: bs => process_blocks runTool bs

/-- How one iteration of the `while True` loop ended: returned with no tool
use (line 315), looped for another API call, or returned from the `except`
handler (line 319). -/
inductive StepResult where
  | done : StepResult
  | loopAgain : StepResult
  | apiError : StepResult
  deriving DecidableEq, Repr

/-- The transcript and outcome after an iteration (or after the whole loop). -/
structure IterOutcome where
  messages : List Message
  result : StepResult

/-- One iteration of `sampling_loop` (lines 218-319), given the outcome of
the API call and stream drain (`Except.error` models an exception raised by
`create` or while draining, caught at line 317 before any append happened;
`Except.ok blocks` models a fully drained stream).  On success the tool-result
user messages are appended during processing (line 297), then the assistant
message (lines 308-311), then the termination test on `response_params`
(line 314). -/
def sampling_iteration (runTool : String → Json → PyToolResult)
    (messages : List Message) (streamOutcome : Except String (List RawBlock)) :
    IterOutcome :=
  match streamOutcome with
  | Except.error _ => IterOutcome.mk messages StepResult.apiError
  | Except.ok blocks =>
    let r := process_blocks runTool blocks
    let messages2 := messages ++ r.2 ++ [Message.mk Role.assistant r.1]
    if r.1.any isToolUseParam then IterOutcome.mk messages2 StepResult.loopAgain
    else IterOutcome.mk messages2 StepResult.done

/-- The full `while True` loop: `oracle i` is the outcome of the `i`-th API
call of this turn sequence; `fuel` bounds the number of iterations evaluated
(the Python loop has no bound; `none` means fuel ran out before the loop
returned). -/
def sampling_loop (runTool : String → Json → PyToolResult)
    (oracle : Nat → Except String (List RawBlock)) :
    Nat → Nat → List Message → Option IterOutcome
  | 0, _, _ => none
  | fuel + 1, i, ms =>
    let out := sampling_iteration runTool ms (oracle i)
    match out.result with
    | StepResult.loopAgain => sampling_loop runTool oracle fuel (i + 1) out.messages
    | _ => some out

/-! ## Cache annotation and request assembly (lines 219-236) -/

/-- The cache-control marker (`type: ephemeral`). -/
inductive CacheControl where
  | ephemeral : CacheControl
  deriving DecidableEq, Repr

/-- The system prompt block (`BetaTextBlockParam`), whose `cache_control` key
may be absent. -/
structure SystemBlock where
  text : String
  cache_control : Option CacheControl
  deriving DecidableEq, Repr

/-- Lines 223-224: copy the system block and set
`cache_control = (type: ephemeral)` unconditionally, before every call. -/
def system_with_cache (sys : SystemBlock) : SystemBlock :=
  { sys with cache_control := some CacheControl.ephemeral }

/-- Modelled from the spec: `_inject_prompt_caching` (line 222) is imported
from `computer_use_demo.loop` and its body is not part of this repository's
source.  Spec 4.1: mark a bounded number of the most recent message
boundaries as cache breakpoints, evicting older ones, bounded by the
configured `max_cache_breakpoints`.  The marks are metadata: the function
returns the marked message indices, most recent first, and does not alter
the messages. -/
def inject_prompt_caching (maxBp : Nat) (ms : List Message) : List Nat :=
  ((List.range ms.length).reverse).take maxBp

/-- The prompt-caching beta flag constant (line 39). -/
def PROMPT_CACHING_BETA_FLAG : String := "prompt-caching-2024-07-31"

/-- The max-tokens constant (line 42). -/
def DEFAULT_MAX_TOKENS : Nat := 16384

/-- The request assembled for each API call (lines 228-236), with the cache
breakpoint metadata computed at line 222. -/
structure ApiRequest where
  messages : List Message
  system : List SystemBlock
  cacheMarks : List Nat
  betas : List String
  maxTokens : Nat
  streamed : Bool

/-- Lines 219-236: build the request for one API call: betas (tool beta flag
if any, then the prompt-caching flag), cache breakpoints over the transcript,
the system block always marked cacheable, full message list, streaming on. -/
def build_request (maxBp : Nat) (toolBetaFlag : Option String)
    (sys : SystemBlock) (ms : List Message) : ApiRequest :=
  { messages := ms
    system := [system_with_cache sys]
    cacheMarks := inject_prompt_caching maxBp ms
    betas := (match toolBetaFlag with | some f => [f] | none => []) ++ [PROMPT_CACHING_BETA_FLAG]
    maxTokens := DEFAULT_MAX_TOKENS
    streamed := true }

/-! ## Save / load / clear (handle_command, lines 104-153)

`handle_command` works on the untyped message dicts; messages are modelled
here in the generic shape save writes and load reads: a `role` value and a
`content` value (the two keys the code touches). -/

/-- A message as the save/load code sees it. -/
structure SavedMsg where
  role : Json
  content : Json

/-- Line 125: a message's content is kept as-is when it is a string, else
dumped to a string. -/
def serialize_message (m : SavedMsg) : SavedMsg :=
  { role := m.role
    content :=
      match m.content with
      | Json.jstr s => Json.jstr s
      | v => Json.jstr (encJson v) }

/-- The characters of the `role` key. -/
def roleKey : List Char := "role".data

/-- The characters of the `content` key. -/
def contentKey : List Char := "content".data

/-- The serialisable dict built for one message at lines 123-126. -/
def msg_record (m : SavedMsg) : Json :=
  Json.jobj [(roleKey, m.role), (contentKey, m.content)]

/-- Lines 119-129: serialize every message, then dump the record list to the
file. -/
def save_file (ms : List SavedMsg) : List Char :=
  encJson (Json.jarr ((ms.map serialize_message).map msg_record))

/-- Python dict key lookup on a parsed object (later duplicate keys win, as
in `json.loads`). -/
def lookupKey (k : List Char) : List (List Char × Json) → Option Json
  | [] => none
  | (k2, v) :: rest =>
    match lookupKey k rest with
    | some r => some r
    | none => if k2 = k then some v else none

/-- Reading one loaded record's `role` and `content` keys (lines 144-150
touch `content`; `role` is carried along in the dict).  A record that is not
an object with both keys raises in Python; that is the `none` case. -/
def record_to_message : Json → Option SavedMsg
  | Json.jobj kvs => do
    let role ← lookupKey roleKey kvs
    let content ← lookupKey contentKey kvs
    pure (SavedMsg.mk role content)
  | _ => none

/-- The `startswith` test at line 145: does the string begin with the
opening bracket? -/
def startsWithBracket : List Char → Bool
  | [] => false
  | c :: _ => decide (c = '[')

/-- Lines 145-149: when a loaded message's content is a string starting with
the opening bracket, try to parse it; on failure keep the string. -/
def parse_loaded_content (m : SavedMsg) : SavedMsg :=
  { role := m.role
    content :=
      match m.content with
      | Json.jstr s =>
        if startsWithBracket s then
          (match json_loads s with
           | some v => v
           | none => Json.jstr s)
        else Json.jstr s
      | v => v }

/-- Lines 140-150: parse the file, then rebuild the message list, re-parsing
bracket-prefixed string contents.  `none` models the exception path (caught
at line 152). -/
def load_file (s : List Char) : Option (List SavedMsg) :=
  match json_loads s with
  | some (Json.jarr records) =>
    (records.mapM record_to_message).map (List.map parse_loaded_content)
  | _ => none

/-- Line 108: the clear command replaces the transcript with the empty
list. -/
def clear_messages (_ms : List SavedMsg) : List SavedMsg := []

/-- State after the save command: the transcript it left behind, and the file
contents written (none when no filename was given, lines 113-115). -/
structure SaveOutcome where
  messages : List SavedMsg
  file : Option (List Char)

/-- Lines 112-132: the save command serializes the current messages into a
fresh list and writes it out; the transcript itself is only read. -/
def handle_save (ms : List SavedMsg) (args : List String) : SaveOutcome :=
  match args with
  | [] => SaveOutcome.mk ms none
  | _ :: _ => SaveOutcome.mk ms (some (save_file ms))

/-! ## Helper definitions used by the statements -/

/-- The block a raw assembled block contributes to `response_params`
(lines 253-265): a truthy text block and a tool-use block survive; an empty
text block and a thinking block are dropped. -/
def rawToParam : RawBlock → Option LoopBlock
  | RawBlock.text s => if s = "" then none else some (LoopBlock.text s)
  | RawBlock.toolUse blockId name input => some (LoopBlock.toolUse blockId name input)
  | RawBlock.thinking _ => none

/-- Whether a system block carries the ephemeral cache marker. -/
def hasCacheMark (b : SystemBlock) : Bool :=
  match b.cache_control with
  | some CacheControl.ephemeral => true
  | none => false

/-- Message contents for which save-then-load is the identity: structured
list content, and string content that load does not re-parse (anything not
both bracket-prefixed and fully parseable). -/
def contentOK : Json → Bool
  | Json.jarr _ => true
  | Json.jstr s =>
    if startsWithBracket s then
      (match json_loads s with
       | some _ => false
       | none => true)
    else true
  | _ => false

/-- A concrete tool oracle whose results are all empty. -/
def runTool0 : String → Json → PyToolResult := fun _ _ => PyToolResult.mk none none none

/-- A concrete tool oracle returning a one-line file listing, as in the
spec's list-files scenario. -/
def bashRunTool : String → Json → PyToolResult :=
  fun _ _ => PyToolResult.mk (some "a.txt") none none

/-- A concrete API oracle whose every call raises. -/
def oracleErr : Nat → Except String (List RawBlock) := fun _ => Except.error "boom"

/-- A concrete API oracle whose every response is one text block. -/
def oracleText : Nat → Except String (List RawBlock) :=
  fun _ => Except.ok [RawBlock.text "hi"]

/-! ## Theorems -/

/-! ### Round-trip of the codec -/

theorem sizeJ_pos (v : Json) : 1 ≤ sizeJ v := by
  cases v <;> simp only [sizeJ] <;> omega

theorem sizeArr_pos (vs : List Json) : 1 ≤ sizeArr vs := by
  cases vs with
  | nil => simp [sizeArr]
  | cons v vs => have := sizeJ_pos v; simp only [sizeArr]; omega

theorem sizeObj_pos (kvs : List (List Char × Json)) : 1 ≤ sizeObj kvs := by
  cases kvs with
  | nil => simp [sizeObj]
  | cons kv kvs =>
    obtain ⟨k, v⟩ := kv
    have := sizeJ_pos v
    simp only [sizeObj]
    omega

theorem takeIs_replicate (n : Nat) (t : List Char) :
    takeIs (List.replicate n 'I' ++ ':' :: t) = (n, ':' :: t) := by
  induction n with
  | zero => rfl
  | succ n ih => simp [List.replicate_succ, takeIs, ih]

theorem parseStrBody_enc (s rest : List Char) :
    parseStrBody (encStrBody s ++ rest) = some (s, rest) := by
  have harr : encStrBody s ++ rest
      = List.replicate s.length 'I' ++ ':' :: (s ++ rest) := by
    simp [encStrBody]
  rw [parseStrBody, harr, takeIs_replicate]
  simp [List.take_left, List.drop_left]

/-- The rendering of any value is nonempty and never begins with a closing
bracket or closing brace. -/
theorem encJson_head (v : Json) :
    ∃ c cs, encJson v = c :: cs ∧ c ≠ ']' ∧ c ≠ rbrace := by
  cases v with
  | jnull => exact ⟨'n', [], rfl, by decide, by decide⟩
  | jbool b => cases b with
    | true => exact ⟨'t', [], rfl, by decide, by decide⟩
    | false => exact ⟨'f', [], rfl, by decide, by decide⟩
  | jstr s =>
    cases s with
    | nil => exact ⟨':', [], rfl, by decide, by decide⟩
    | cons a as =>
      refine ⟨'I', List.replicate as.length 'I' ++ ':' :: (a :: as), ?_, by decide, by decide⟩
      simp [encJson, encStrBody, List.replicate_succ]
  | jarr vs => exact ⟨'[', encArr vs ++ [']'], by simp [encJson], by decide, by decide⟩
  | jobj kvs => exact ⟨lbrace, encObj kvs ++ [rbrace], by simp [encJson], by decide, by decide⟩

/-- The rendering of any string (via `encStrBody`) begins with `I` or `:`. -/
theorem encStrBody_head (s : List Char) :
    ∃ c cs, encStrBody s = c :: cs ∧ (c = 'I' ∨ c = ':') := by
  cases s with
  | nil => exact ⟨':', [], rfl, Or.inr rfl⟩
  | cons a as =>
    refine ⟨'I', List.replicate as.length 'I' ++ ':' :: (a :: as), ?_, Or.inl rfl⟩
    simp [encStrBody, List.replicate_succ]

theorem parse_enc_all (fuel : Nat) :
    (∀ v rest, sizeJ v ≤ fuel → parseJson fuel (encJson v ++ rest) = some (v, rest)) ∧
    (∀ vs rest, sizeArr vs ≤ fuel →
      parseArrElems fuel (encArr vs ++ ']' :: rest) = some (vs, rest)) ∧
    (∀ kvs rest, sizeObj kvs ≤ fuel →
      parseObjElems fuel (encObj kvs ++ rbrace :: rest) = some (kvs, rest)) := by
  induction fuel with
  | zero =>
    refine ⟨?_, ?_, ?_⟩
    · intro v rest h; exact absurd h (by have := sizeJ_pos v; omega)
    · intro vs rest h; exact absurd h (by have := sizeArr_pos vs; omega)
    · intro kvs rest h; exact absurd h (by have := sizeObj_pos kvs; omega)
  | succ fuel ih =>
    obtain ⟨ihJ, ihA, ihO⟩ := ih
    refine ⟨?_, ?_, ?_⟩
    · intro v rest h
      cases v with
      | jnull => rfl
      | jbool b => cases b <;> rfl
      | jstr s =>
        obtain ⟨c, cs, hcs, hc⟩ := encStrBody_head s
        have hbody := parseStrBody_enc s rest
        show parseJson (fuel + 1) (encStrBody s ++ rest) = some (Json.jstr s, rest)
        rw [hcs] at hbody ⊢
        rw [List.cons_append] at hbody ⊢
        have hstep : parseJson (fuel + 1) (c :: (cs ++ rest)) =
            (match parseStrBody (c :: (cs ++ rest)) with
             | some r => some (Json.jstr r.1, r.2)
             | none => none) := by
          rcases hc with rfl | rfl <;> rfl
        rw [hstep, hbody]
      | jarr vs =>
        have hs : sizeArr vs ≤ fuel := by
          have : sizeJ (Json.jarr vs) = sizeArr vs + 1 := rfl
          omega
        have harr := ihA vs rest hs
        have hshape : encJson (Json.jarr vs) ++ rest
            = '[' :: (encArr vs ++ ']' :: rest) := by
          simp [encJson]
        rw [hshape]
        show (match parseArrElems fuel (encArr vs ++ ']' :: rest) with
              | some r => some (Json.jarr r.1, r.2)
              | none => none) = some (Json.jarr vs, rest)
        rw [harr]
      | jobj kvs =>
        have hs : sizeObj kvs ≤ fuel := by
          have : sizeJ (Json.jobj kvs) = sizeObj kvs + 1 := rfl
          omega
        have hobj := ihO kvs rest hs
        have hshape : encJson (Json.jobj kvs) ++ rest
            = lbrace :: (encObj kvs ++ rbrace :: rest) := by
          simp [encJson]
        rw [hshape]
        show (match parseObjElems fuel (encObj kvs ++ rbrace :: rest) with
              | some r => some (Json.jobj r.1, r.2)
              | none => none) = some (Json.jobj kvs, rest)
        rw [hobj]
    · intro vs rest h
      cases vs with
      | nil => rfl
      | cons v vs =>
        have hv : sizeJ v ≤ fuel := by
          have h2 := sizeArr_pos vs
          have : sizeArr (v :: vs) = sizeJ v + sizeArr vs := rfl
          omega
        have hvs : sizeArr vs ≤ fuel := by
          have h2 := sizeJ_pos v
          have : sizeArr (v :: vs) = sizeJ v + sizeArr vs := rfl
          omega
        obtain ⟨c, cs, hcs, hc1, _⟩ := encJson_head v
        have hshape : encArr (v :: vs) ++ ']' :: rest
            = c :: (cs ++ (encArr vs ++ ']' :: rest)) := by
          simp [encArr, hcs]
        rw [hshape]
        have hstep : parseArrElems (fuel + 1) (c :: (cs ++ (encArr vs ++ ']' :: rest))) =
            (match parseJson fuel (c :: (cs ++ (encArr vs ++ ']' :: rest))) with
             | some r =>
               (match parseArrElems fuel r.2 with
                | some r2 => some (r.1 :: r2.1, r2.2)
                | none => none)
             | none => none) := by
          rw [parseArrElems]
          rw [if_neg hc1]
        rw [hstep]
        have hj : parseJson fuel (c :: (cs ++ (encArr vs ++ ']' :: rest)))
            = some (v, encArr vs ++ ']' :: rest) := by
          have := ihJ v (encArr vs ++ ']' :: rest) hv
          rw [hcs] at this
          rw [List.cons_append] at this
          exact this
        simp only [hj, ihA vs rest hvs]
    · intro kvs rest h
      cases kvs with
      | nil => rfl
      | cons kv kvs =>
        obtain ⟨k, v⟩ := kv
        have hv : sizeJ v ≤ fuel := by
          have h2 := sizeObj_pos kvs
          have : sizeObj ((k, v) :: kvs) = sizeJ v + sizeObj kvs := rfl
          omega
        have hkvs : sizeObj kvs ≤ fuel := by
          have h2 := sizeJ_pos v
          have : sizeObj ((k, v) :: kvs) = sizeJ v + sizeObj kvs := rfl
          omega
        obtain ⟨c, cs, hcs, hc⟩ := encStrBody_head k
        have hshape : encObj ((k, v) :: kvs) ++ rbrace :: rest
            = c :: (cs ++ (encJson v ++ (encObj kvs ++ rbrace :: rest))) := by
          simp [encObj, hcs]
        rw [hshape]
        have hcr : c ≠ rbrace := by rcases hc with rfl | rfl <;> decide
        have hstep : parseObjElems (fuel + 1)
              (c :: (cs ++ (encJson v ++ (encObj kvs ++ rbrace :: rest)))) =
            (match parseStrBody (c :: (cs ++ (encJson v ++ (encObj kvs ++ rbrace :: rest)))) with
             | some kk =>
               (match parseJson fuel kk.2 with
                | some r =>
                  (match parseObjElems fuel r.2 with
                   | some r2 => some ((kk.1, r.1) :: r2.1, r2.2)
                   | none => none)
                | none => none)
             | none => none) := by
          rw [parseObjElems]
          rw [if_neg hcr]
        rw [hstep]
        have hk : parseStrBody (c :: (cs ++ (encJson v ++ (encObj kvs ++ rbrace :: rest))))
            = some (k, encJson v ++ (encObj kvs ++ rbrace :: rest)) := by
          have := parseStrBody_enc k (encJson v ++ (encObj kvs ++ rbrace :: rest))
          rw [hcs] at this
          rw [List.cons_append] at this
          exact this
        have hj := ihJ v (encObj kvs ++ rbrace :: rest) hv
        simp only [hk, hj, ihO kvs rest hkvs]

theorem sizeJ_le_encLength (n : Nat) :
    (∀ v, sizeJ v ≤ n → sizeJ v ≤ (encJson v).length) ∧
    (∀ vs, sizeArr vs ≤ n → sizeArr vs ≤ (encArr vs).length + 1) ∧
    (∀ kvs, sizeObj kvs ≤ n → sizeObj kvs ≤ (encObj kvs).length + 1) := by
  induction n with
  | zero =>
    refine ⟨?_, ?_, ?_⟩
    · intro v h; exact absurd h (by have := sizeJ_pos v; omega)
    · intro vs h; exact absurd h (by have := sizeArr_pos vs; omega)
    · intro kvs h; exact absurd h (by have := sizeObj_pos kvs; omega)
  | succ n ih =>
    obtain ⟨ihJ, ihA, ihO⟩ := ih
    refine ⟨?_, ?_, ?_⟩
    · intro v h
      cases v with
      | jnull => simp [sizeJ, encJson]
      | jbool b => cases b <;> simp [sizeJ, encJson]
      | jstr s => simp [sizeJ, encJson, encStrBody]; omega
      | jarr vs =>
        have hs : sizeArr vs ≤ n := by
          have : sizeJ (Json.jarr vs) = sizeArr vs + 1 := rfl
          omega
        have := ihA vs hs
        have hlen : (encJson (Json.jarr vs)).length = (encArr vs).length + 2 := by
          simp [encJson]
        have hsz : sizeJ (Json.jarr vs) = sizeArr vs + 1 := rfl
        omega
      | jobj kvs =>
        have hs : sizeObj kvs ≤ n := by
          have : sizeJ (Json.jobj kvs) = sizeObj kvs + 1 := rfl
          omega
        have := ihO kvs hs
        have hlen : (encJson (Json.jobj kvs)).length = (encObj kvs).length + 2 := by
          simp [encJson]
        have hsz : sizeJ (Json.jobj kvs) = sizeObj kvs + 1 := rfl
        omega
    · intro vs h
      cases vs with
      | nil => simp [sizeArr, encArr]
      | cons v vs =>
        have h1 := sizeJ_pos v
        have h2 := sizeArr_pos vs
        have hsz : sizeArr (v :: vs) = sizeJ v + sizeArr vs := rfl
        have hv := ihJ v (by omega)
        have hvs := ihA vs (by omega)
        have hlen : (encArr (v :: vs)).length = (encJson v).length + (encArr vs).length := by
          simp [encArr]
        omega
    · intro kvs h
      cases kvs with
      | nil => simp [sizeObj, encObj]
      | cons kv kvs =>
        obtain ⟨k, v⟩ := kv
        have h1 := sizeJ_pos v
        have h2 := sizeObj_pos kvs
        have hsz : sizeObj ((k, v) :: kvs) = sizeJ v + sizeObj kvs := rfl
        have hv := ihJ v (by omega)
        have hkvs := ihO kvs (by omega)
        have hlen : (encObj ((k, v) :: kvs)).length
            = (encStrBody k).length + ((encJson v).length + (encObj kvs).length) := by
          simp [encObj]
        omega

/-- Stringify-then-parse is the identity on structured values: the contract of
`json.dumps` / `json.loads` that the persisted-transcript format relies on. -/
theorem json_loads_dumps (v : Json) : json_loads (encJson v) = some v := by
  have h1 : sizeJ v ≤ (encJson v).length := (sizeJ_le_encLength (sizeJ v)).1 v le_rfl
  have h2 := (parse_enc_all ((encJson v).length + 1)).1 v [] (by omega)
  rw [List.append_nil] at h2
  rw [json_loads, h2]


/-! ### Structure of the processing loop -/

theorem process_blocks_fst (runTool : String → Json → PyToolResult)
    (bs : List RawBlock) :
    (process_blocks runTool bs).1 = bs.filterMap rawToParam := by
  induction bs with
  | nil => rfl
  | cons b bs ih =>
    cases b with
    | text s =>
      by_cases hs : s = "" <;> simp [process_blocks, rawToParam, hs, ih]
    | toolUse blockId name input => simp [process_blocks, rawToParam, ih]
    | thinking s => simp [process_blocks, rawToParam, ih]

theorem process_blocks_snd_user (runTool : String → Json → PyToolResult)
    (bs : List RawBlock) :
    ((process_blocks runTool bs).2).all isUser = true := by
  induction bs with
  | nil => rfl
  | cons b bs ih =>
    cases b with
    | text s => simpa [process_blocks] using ih
    | toolUse blockId name input => simpa [process_blocks, isUser] using ih
    | thinking s => simpa [process_blocks] using ih

theorem process_blocks_any (runTool : String → Json → PyToolResult)
    (bs : List RawBlock) :
    (process_blocks runTool bs).1.any isToolUseParam = bs.any isToolUseRaw := by
  induction bs with
  | nil => rfl
  | cons b bs ih =>
    cases b with
    | text s =>
      by_cases hs : s = "" <;>
        simp [process_blocks, isToolUseParam, isToolUseRaw, hs, ih]
    | toolUse blockId name input =>
      simp [process_blocks, isToolUseParam, isToolUseRaw]
    | thinking s => simp [process_blocks, isToolUseRaw, ih]

theorem process_blocks_snd_nil (runTool : String → Json → PyToolResult)
    (bs : List RawBlock) (h : bs.any isToolUseRaw = false) :
    (process_blocks runTool bs).2 = [] := by
  induction bs with
  | nil => rfl
  | cons b bs ih =>
    rw [List.any_cons] at h
    cases b with
    | text s =>
      simp only [isToolUseRaw, Bool.false_or] at h
      simp [process_blocks, ih h]
    | toolUse blockId name input =>
      simp only [isToolUseRaw, Bool.true_or] at h
      exact absurd h (by simp)
    | thinking s =>
      simp only [isToolUseRaw, Bool.false_or] at h
      simp [process_blocks, ih h]

theorem sampling_iteration_ok_messages (runTool : String → Json → PyToolResult)
    (ms : List Message) (blocks : List RawBlock) :
    (sampling_iteration runTool ms (Except.ok blocks)).messages =
      ms ++ (process_blocks runTool blocks).2 ++
        [Message.mk Role.assistant (process_blocks runTool blocks).1] := by
  simp only [sampling_iteration]
  split <;> rfl

theorem sampling_iteration_ok_result (runTool : String → Json → PyToolResult)
    (ms : List Message) (blocks : List RawBlock) :
    (sampling_iteration runTool ms (Except.ok blocks)).result =
      (if blocks.any isToolUseRaw then StepResult.loopAgain else StepResult.done) := by
  simp only [sampling_iteration]
  rw [← process_blocks_any runTool blocks]
  split <;> rename_i h <;> simp only [h, if_true, if_false]

/-! ### The claims -/

/-- C1: the claim says each turn with N tool uses appends one assistant
message followed by one user message batching the N tool results.  The code
instead appends one user message per tool result while processing, before
the assistant message.  This theorem evaluates the loop at the failing input
(one bash tool use returning a file listing): the appended user tool-result
message precedes the assistant message, N separate one-block user messages
rather than one batched message. -/
theorem c1_transcript_order_at_failing_input :
    sampling_iteration bashRunTool []
      (Except.ok [RawBlock.toolUse "toolu_1" "bash"
        (Json.jobj [("command".data, Json.jstr "ls".data)])]) =
      IterOutcome.mk
        [Message.mk Role.user [LoopBlock.toolResult
            (ToolResultBlock.mk (TRContent.items [TRItem.textItem "a.txt"]) "toolu_1" false)],
         Message.mk Role.assistant [LoopBlock.toolUse "toolu_1" "bash"
            (Json.jobj [("command".data, Json.jstr "ls".data)])]]
        StepResult.loopAgain := rfl

/-- C2: if the API call or the stream fails mid-turn, the exception is
caught before any append happened: the transcript is exactly what it was
when the turn began, the iteration reports the failure, and the surrounding
loop returns control (so the session can accept new input). -/
theorem c2_stream_failure_preserves_transcript
    (runTool : String → Json → PyToolResult) (ms : List Message) (e : String)
    (oracle : Nat → Except String (List RawBlock)) (fuel : Nat)
    (h : oracle 0 = Except.error e) :
    sampling_iteration runTool ms (Except.error e) =
      IterOutcome.mk ms StepResult.apiError ∧
    sampling_loop runTool oracle (fuel + 1) 0 ms =
      some (IterOutcome.mk ms StepResult.apiError) := by
  refine ⟨rfl, ?_⟩
  simp [sampling_loop, sampling_iteration, h]

theorem c2_witness :
    sampling_iteration runTool0 [] (Except.error "boom") =
      IterOutcome.mk [] StepResult.apiError ∧
    sampling_loop runTool0 oracleErr 1 0 [] =
      some (IterOutcome.mk [] StepResult.apiError) :=
  c2_stream_failure_preserves_transcript runTool0 [] "boom" oracleErr 0 rfl

/-- C3 counterexample: the claim says the appended assistant message holds
every assembled block verbatim, including empty-text and thinking blocks.
Assembling one thinking block and one empty text block yields an assistant
message with empty content: both blocks are dropped. -/
theorem c3_counterexample :
    sampling_iteration runTool0 []
      (Except.ok [RawBlock.thinking "hmm", RawBlock.text ""]) =
      IterOutcome.mk [Message.mk Role.assistant []] StepResult.done := rfl

/-- C3 (amended): the appended assistant message holds exactly the
nonempty-text text blocks and the tool-use blocks of the assembled response,
verbatim and in assembled order; empty-text and thinking blocks are omitted.
Any messages appended before it in the same iteration are user tool-result
messages. -/
theorem c3_assistant_gets_filtered_blocks (runTool : String → Json → PyToolResult)
    (ms : List Message) (blocks : List RawBlock) :
    (sampling_iteration runTool ms (Except.ok blocks)).messages =
      ms ++ (process_blocks runTool blocks).2 ++
        [Message.mk Role.assistant (blocks.filterMap rawToParam)] ∧
    ((process_blocks runTool blocks).2).all isUser = true := by
  refine ⟨?_, process_blocks_snd_user runTool blocks⟩
  rw [sampling_iteration_ok_messages, process_blocks_fst]

/-- C4: when the first drained response of a turn has zero tool-use blocks,
the loop returns after that single iteration with the transcript grown by
exactly the one assistant message; and for any successfully drained
response, the iteration ends the turn exactly when the response has zero
tool-use blocks. -/
theorem c4_zero_tool_use_terminates (runTool : String → Json → PyToolResult)
    (oracle : Nat → Except String (List RawBlock)) (fuel : Nat)
    (ms : List Message) (blocks : List RawBlock)
    (h0 : oracle 0 = Except.ok blocks)
    (hz : blocks.any isToolUseRaw = false) :
    sampling_loop runTool oracle (fuel + 1) 0 ms =
      some (IterOutcome.mk (ms ++ [Message.mk Role.assistant (blocks.filterMap rawToParam)])
        StepResult.done) ∧
    (∀ blocks2 : List RawBlock,
      (sampling_iteration runTool ms (Except.ok blocks2)).result =
        (if blocks2.any isToolUseRaw then StepResult.loopAgain else StepResult.done)) := by
  constructor
  · have hiter : sampling_iteration runTool ms (Except.ok blocks) =
        IterOutcome.mk (ms ++ [Message.mk Role.assistant (blocks.filterMap rawToParam)])
          StepResult.done := by
      have hres := sampling_iteration_ok_result runTool ms blocks
      have hmsg := sampling_iteration_ok_messages runTool ms blocks
      rw [hz] at hres
      simp at hres
      rw [process_blocks_snd_nil runTool blocks hz, List.append_nil,
        process_blocks_fst] at hmsg
      cases hI : sampling_iteration runTool ms (Except.ok blocks) with
      | mk m r =>
        rw [hI] at hres hmsg
        simp only at hres hmsg
        rw [hmsg, hres]
    simp only [sampling_loop, h0, hiter]
  · intro blocks2
    exact sampling_iteration_ok_result runTool ms blocks2

theorem c4_witness :
    sampling_loop runTool0 oracleText 1 0 [] =
      some (IterOutcome.mk [Message.mk Role.assistant [LoopBlock.text "hi"]]
        StepResult.done) ∧
    (sampling_iteration runTool0 []
      (Except.ok [RawBlock.toolUse "t1" "bash" Json.jnull])).result =
      StepResult.loopAgain := by
  have h := c4_zero_tool_use_terminates runTool0 oracleText 0 [] [RawBlock.text "hi"] rfl rfl
  exact ⟨h.1, h.2 [RawBlock.toolUse "t1" "bash" Json.jnull]⟩

/-- C5: converting a raw tool result with a truthy (present, nonempty)
error produces a block with `is_error = true` whose content is exactly the
error string, suppressing any output text or image; without a truthy error
the block has `is_error = false` and its content is the output/image item
list. -/
theorem c5_error_replaces_content (r : PyToolResult) (blockId : String) :
    (strOptTruthy r.error = true →
      make_tool_result r blockId =
        ToolResultBlock.mk (TRContent.errStr (r.error.getD "")) blockId true) ∧
    (strOptTruthy r.error = false →
      make_tool_result r blockId =
        ToolResultBlock.mk (TRContent.items (tool_result_items r)) blockId false) := by
  constructor <;> intro h <;> simp [make_tool_result, h]

theorem c5_witness :
    make_tool_result
        (PyToolResult.mk (some "stale output") (some "permission denied") (some "img")) "t1" =
      ToolResultBlock.mk (TRContent.errStr "permission denied") "t1" true ∧
    make_tool_result (PyToolResult.mk (some "a.txt") none (some "img")) "t2" =
      ToolResultBlock.mk
        (TRContent.items [TRItem.textItem "a.txt", TRItem.imageItem "img"]) "t2" false := by
  constructor
  · exact (c5_error_replaces_content
      (PyToolResult.mk (some "stale output") (some "permission denied") (some "img")) "t1").1 rfl
  · exact (c5_error_replaces_content
      (PyToolResult.mk (some "a.txt") none (some "img")) "t2").2 rfl

/-- C7: on every request built for a remote call, every system block sent
carries the ephemeral cache marker (independent of the transcript), and the
number of message cache breakpoints never exceeds the configured maximum. -/
theorem c7_cache_marking_bounded (maxBp : Nat) (toolBetaFlag : Option String)
    (sys : SystemBlock) (ms : List Message) :
    (build_request maxBp toolBetaFlag sys ms).system.all hasCacheMark = true ∧
    (build_request maxBp toolBetaFlag sys ms).cacheMarks.length ≤ maxBp := by
  constructor
  · rfl
  · show (((List.range ms.length).reverse).take maxBp).length ≤ maxBp
    rw [List.length_take]
    exact min_le_left _ _

/-- C8: clearing an empty transcript leaves it empty. -/
theorem c8_clear_empty_idempotent : clear_messages ([] : List SavedMsg) = [] := rfl

/-- C9: the save command leaves the in-memory transcript unchanged: the
serialized record list is built separately and the message list after the
command is the one it started with, whatever the arguments. -/
theorem c9_save_preserves_messages (ms : List SavedMsg) (args : List String) :
    (handle_save ms args).messages = ms := by
  cases args <;> rfl

/-- C10: every successfully drained stream appends exactly one
assistant-role message; in the zero-block edge case the appended assistant
message has empty content and the turn terminates. -/
theorem c10_one_assistant_message :
    (∀ (runTool : String → Json → PyToolResult) (ms : List Message),
      sampling_iteration runTool ms (Except.ok []) =
        IterOutcome.mk (ms ++ [Message.mk Role.assistant []]) StepResult.done) ∧
    (∀ (runTool : String → Json → PyToolResult) (ms : List Message)
        (blocks : List RawBlock),
      (sampling_iteration runTool ms (Except.ok blocks)).messages.countP isAssistant =
        ms.countP isAssistant + 1) := by
  constructor
  · intro runTool ms
    simp [sampling_iteration, process_blocks, isToolUseParam]
  · intro runTool ms blocks
    rw [sampling_iteration_ok_messages]
    rw [List.countP_append, List.countP_append]
    have h1 : (process_blocks runTool blocks).2.countP isAssistant = 0 := by
      rw [List.countP_eq_zero]
      intro m hm
      have hall := process_blocks_snd_user runTool blocks
      rw [List.all_eq_true] at hall
      have := hall m hm
      cases hr : m.role <;> simp [isAssistant, isUser, hr] at this ⊢
    have h2 : ([Message.mk Role.assistant (process_blocks runTool blocks).1]).countP
        isAssistant = 1 := by
      simp [isAssistant]
    omega

/-! ### Save / load round-trip -/

theorem record_to_message_msg_record (m : SavedMsg) :
    record_to_message (msg_record m) = some m := rfl

theorem mapM_msg_record (l : List SavedMsg) :
    (l.map msg_record).mapM record_to_message = some l := by
  induction l with
  | nil => rfl
  | cons m l ih =>
    rw [List.map_cons, List.mapM_cons, record_to_message_msg_record, ih]
    rfl

theorem startsWithBracket_enc_jarr (vs : List Json) :
    startsWithBracket (encJson (Json.jarr vs)) = true := by
  simp [encJson, startsWithBracket]

theorem parse_loaded_serialize (m : SavedMsg) (h : contentOK m.content = true) :
    parse_loaded_content (serialize_message m) = m := by
  obtain ⟨role, content⟩ := m
  cases content with
  | jnull => simp [contentOK] at h
  | jbool b => simp [contentOK] at h
  | jobj kvs => simp [contentOK] at h
  | jarr vs =>
    simp only [serialize_message, parse_loaded_content]
    rw [startsWithBracket_enc_jarr]
    simp only [if_true]
    rw [json_loads_dumps]
  | jstr s =>
    simp only [contentOK] at h
    simp only [serialize_message, parse_loaded_content]
    by_cases hb : startsWithBracket s = true
    · rw [if_pos hb] at h ⊢
      cases hj : json_loads s with
      | some v => rw [hj] at h; simp at h
      | none => rfl
    · rw [if_neg hb]

theorem map_parse_serialize (ms : List SavedMsg)
    (h : ms.all (fun m => contentOK m.content) = true) :
    (ms.map serialize_message).map parse_loaded_content = ms := by
  induction ms with
  | nil => rfl
  | cons m l ih =>
    rw [List.all_cons, Bool.and_eq_true] at h
    rw [List.map_cons, List.map_cons, parse_loaded_serialize m h.1, ih h.2]

/-- C6 counterexample: the claim says raw-string content is preserved as a
string by save-then-load.  A transcript whose one message has the two-byte
string content consisting of an opening and a closing bracket round-trips to
the empty list value instead: load re-parses any bracket-prefixed string. -/
theorem c6_counterexample :
    load_file (save_file [SavedMsg.mk (Json.jstr "user".data) (Json.jstr "[]".data)]) =
      some [SavedMsg.mk (Json.jstr "user".data) (Json.jarr [])] ∧
    Json.jarr [] ≠ Json.jstr "[]".data :=
  ⟨rfl, fun h => Json.noConfusion h⟩

/-- C6 (amended): saving then loading reproduces the transcript exactly for
every transcript whose message contents are structured lists or strings,
except that a string content which begins with the opening bracket and
parses in full is replaced by the parsed structure; all other string
contents and all list contents survive unchanged. -/
theorem c6_save_load_roundtrip (ms : List SavedMsg)
    (h : ms.all (fun m => contentOK m.content) = true) :
    load_file (save_file ms) = some ms := by
  have hload := json_loads_dumps (Json.jarr ((ms.map serialize_message).map msg_record))
  rw [save_file]
  unfold load_file
  rw [hload]
  show ((((ms.map serialize_message).map msg_record).mapM record_to_message).map
      (List.map parse_loaded_content)) = some ms
  rw [mapM_msg_record]
  show some ((ms.map serialize_message).map parse_loaded_content) = some ms
  rw [map_parse_serialize ms h]

theorem c6_witness :
    load_file (save_file
      [SavedMsg.mk (Json.jstr "user".data) (Json.jarr [Json.jstr "hello".data]),
       SavedMsg.mk (Json.jstr "assistant".data) (Json.jstr "plain text".data)]) =
      some
      [SavedMsg.mk (Json.jstr "user".data) (Json.jarr [Json.jstr "hello".data]),
       SavedMsg.mk (Json.jstr "assistant".data) (Json.jstr "plain text".data)] :=
  c6_save_load_roundtrip
    [SavedMsg.mk (Json.jstr "user".data) (Json.jarr [Json.jstr "hello".data]),
     SavedMsg.mk (Json.jstr "assistant".data) (Json.jstr "plain text".data)] rfl

end TerminalInterface
